import Mathlib

/-!
Verification of the validation pipeline of the task-management system
(`src/utils/ValidationStrategies.js`).

Modelling conventions (shallow embedding of the JavaScript source):

* JavaScript runtime values that may reach a validator are modelled by
  `JSValue`: `null`, `undefined`, `NaN`, integers, strings, booleans and a
  generic (plain) object.  Strings are Lean `String`s; the character-level
  operations (`trim`, `replace`, the regex test, `toLowerCase`) work on
  `String.data : List Char`, modelling a JS string as its sequence of
  characters.
* JS falsiness (`!value`) is `JSValue.falsy`.
* A validator call that would raise a `TypeError` in JS (calling `.trim()`
  or `.toLowerCase()` on a truthy non-string) is modelled by returning
  `none`; `some r` models a normal return of the result object `r`.
  The same `Option` layer propagates a thrown exception out of
  `validateTask` / `validateTaskUpdate`, exactly as an uncaught JS
  exception would.
* `new Date(value)` is modelled by `jsDateParse`, restricted to the ISO
  `YYYY-MM-DD` date-only string format (the only format the repository
  uses); any other string is an Invalid Date (`none`), as are plain
  objects, `undefined` and `NaN`.  The host timezone is modelled as UTC,
  so `setHours(0,0,0,0)` on the current time is flooring to a multiple of
  86400000 ms and an ISO date-only string parses to the UTC midnight of
  the named civil day.
* JS objects with the four optional task fields are `TaskData`; a field
  that is `none` models an object on which `hasOwnProperty` is false and
  property access yields `undefined`.  Result objects (`fieldResults`,
  `sanitizedData`) are association lists in JS key-insertion order.
* The debouncing `RealTimeValidator.validateField` is modelled by an
  event-trace semantics: a time-ordered list of scheduled calls, where a
  pending timer is cancelled exactly when a later call for the same field
  name arrives strictly before the timer's fire time.
-/

/-- A JavaScript runtime value, as far as the validators can distinguish
them.  `object` stands for any plain (truthy, non-string) object. -/
inductive JSValue where
  | null
  | undefined
  | nan
  | num (n : Int)
  | str (s : String)
  | boolean (b : Bool)
  | object
deriving DecidableEq, Repr

/-- JS falsiness: `!v` is true exactly for `null`, `undefined`, `NaN`,
`0`, `""` and `false`. -/
def JSValue.falsy : JSValue → Bool
  | .null => true
  | .undefined => true
  | .nan => true
  | .num n => n == 0
  | .str s => s.data.isEmpty
  | .boolean b => !b
  | .object => false

/-- The whitespace characters recognised by `String.prototype.trim`
(space, tab, line feed, carriage return, vertical tab, form feed). -/
def jsIsWhitespace (c : Char) : Bool :=
  c == ' ' || c == '\t' || c == '\n' || c == '\r' || c == Char.ofNat 11 || c == Char.ofNat 12

/-- `String.prototype.trim` on the character list: drop whitespace from
both ends. -/
def jsTrimList (s : List Char) : List Char :=
  ((s.dropWhile jsIsWhitespace).reverse.dropWhile jsIsWhitespace).reverse

/-- `String.prototype.trim`. -/
def jsTrim (s : String) : String :=
  ⟨jsTrimList s.data⟩

/-- `String.prototype.toLowerCase` (ASCII case folding, which covers the
priority vocabulary). -/
def jsToLowerCase (s : String) : String :=
  ⟨s.data.map Char.toLower⟩

/-- `text.replace(/c/g, r)`: replace every occurrence of the single
character `c` by the string `r`. -/
def replaceAll (c : Char) (r : List Char) : List Char → List Char
  | [] => []
  | a :: rest => (if a = c then r else [a]) ++ replaceAll c r rest

/-- The double-quote character (code 34). -/
def quoteChar : Char := Char.ofNat 34

/-- The single-quote character (code 39). -/
def apostropheChar : Char := Char.ofNat 39

/-- The chained escaping of `sanitize` in `TitleValidationStrategy` and
`DescriptionValidationStrategy`: replace ampersand, then the two angle
brackets, then the double quote, then the single quote, in that order,
globally. -/
def sanitizeList (s : List Char) : List Char :=
  replaceAll apostropheChar "&#x27;".data
    (replaceAll quoteChar "&quot;".data
      (replaceAll '>' "&gt;".data
        (replaceAll '<' "&lt;".data
          (replaceAll '&' "&amp;".data s))))

/-- `sanitize(text)` of the title/description strategies. -/
def sanitize (s : String) : String :=
  ⟨sanitizeList s.data⟩

/-- `/<[^>]*>/.test(text)`: true iff some `<` is followed (anywhere later)
by a `>`; the match is then `<`, the (possibly empty) run of
non-`>` characters, and the first following `>`. -/
def containsHtmlList : List Char → Bool
  | [] => false
  | c :: rest => (c == '<' && rest.contains '>') || containsHtmlList rest

/-- `containsHtml(text)` shared by the title and description strategies. -/
def containsHtml (s : String) : Bool :=
  containsHtmlList s.data

/-- The result object returned by a single field validator:
`{ isValid, errors, sanitizedValue? }`.  `sanitizedValue := none` models
a result object without a `sanitizedValue` property. -/
structure FieldResult where
  isValid : Bool
  errors : List String
  sanitizedValue : Option JSValue := none
deriving DecidableEq, Repr

/-- `TitleValidationStrategy` with its `minLength`/`maxLength`
configuration (defaults 1 and 100). -/
structure TitleValidationStrategy where
  minLength : Nat := 1
  maxLength : Nat := 100
deriving DecidableEq, Repr

/-- `TitleValidationStrategy.validate(title)`.  A truthy non-string makes
`title.trim()` throw a `TypeError`, modelled by `none`. -/
def TitleValidationStrategy.validate (self : TitleValidationStrategy) (title : JSValue) :
    Option FieldResult :=
  if title.falsy then
    some { isValid := false, errors := ["Title is required"] }
  else
    match title with
    | JSValue.str s =>
        let trimmedTitle := jsTrim s
        let errors : List String :=
          (if trimmedTitle.data.length = 0 then
            ["Title cannot be empty or only whitespace"] else []) ++
          (if trimmedTitle.data.length < self.minLength then
            ["Title must be at least " ++ toString self.minLength ++ " character(s)"] else []) ++
          (if trimmedTitle.data.length > self.maxLength then
            ["Title must be no more than " ++ toString self.maxLength ++ " characters"] else []) ++
          (if containsHtml trimmedTitle then
            ["Title cannot contain HTML tags"] else [])
        some { isValid := errors.isEmpty, errors := errors,
               sanitizedValue := some (JSValue.str (sanitize trimmedTitle)) }
    | _ => none

/-- `DescriptionValidationStrategy` with its `maxLength` configuration
(default 500). -/
structure DescriptionValidationStrategy where
  maxLength : Nat := 500
deriving DecidableEq, Repr

/-- `DescriptionValidationStrategy.validate(description)`. -/
def DescriptionValidationStrategy.validate (self : DescriptionValidationStrategy)
    (description : JSValue) : Option FieldResult :=
  if description.falsy then
    some { isValid := true, errors := [], sanitizedValue := some (JSValue.str "") }
  else
    match description with
    | JSValue.str s =>
        let trimmedDescription := jsTrim s
        let errors : List String :=
          (if trimmedDescription.data.length > self.maxLength then
            ["Description must be no more than " ++ toString self.maxLength ++ " characters"]
          else []) ++
          (if containsHtml trimmedDescription then
            ["Description cannot contain HTML tags"] else [])
        some { isValid := errors.isEmpty, errors := errors,
               sanitizedValue := some (JSValue.str (sanitize trimmedDescription)) }
    | _ => none

/-- `PriorityValidationStrategy` with its `validPriorities` vocabulary. -/
structure PriorityValidationStrategy where
  validPriorities : List String := ["high", "medium", "low"]
deriving DecidableEq, Repr

/-- `PriorityValidationStrategy.validate(priority)`. -/
def PriorityValidationStrategy.validate (self : PriorityValidationStrategy)
    (priority : JSValue) : Option FieldResult :=
  if priority.falsy then
    some { isValid := true, errors := [], sanitizedValue := some (JSValue.str "medium") }
  else
    match priority with
    | JSValue.str s =>
        let normalizedPriority := jsTrim (jsToLowerCase s)
        let errors : List String :=
          if self.validPriorities.contains normalizedPriority then []
          else ["Priority must be one of: " ++ String.intercalate ", " self.validPriorities]
        some { isValid := errors.isEmpty, errors := errors,
               sanitizedValue := some (JSValue.str normalizedPriority) }
    | _ => none

/-- Proleptic-Gregorian leap year. -/
def isLeapYear (y : Int) : Bool :=
  (y % 4 == 0 && y % 100 != 0) || y % 400 == 0

/-- Length of month `m` in year `y`. -/
def daysInMonth (y : Int) (m : Nat) : Nat :=
  if m = 2 then (if isLeapYear y then 29 else 28)
  else if m = 4 || m = 6 || m = 9 || m = 11 then 30
  else 31

/-- Days since 1970-01-01 of the civil date `y-m-d`
(floored-division form of the standard civil-calendar formula). -/
def daysFromCivil (y : Int) (m d : Nat) : Int :=
  let yAdj : Int := if m ≤ 2 then y - 1 else y
  let mp : Int := if m ≤ 2 then (m : Int) + 9 else (m : Int) - 3
  365 * yAdj + yAdj.ediv 4 - yAdj.ediv 100 + yAdj.ediv 400 +
    (153 * mp + 2).ediv 5 + (d : Int) - 1 - 719468

/-- Inverse of `daysFromCivil`: the civil date `(y, m, d)` of a day
number. -/
def civilFromDays (z0 : Int) : Int × Nat × Nat :=
  let z := z0 + 719468
  let era := z.ediv 146097
  let doe := (z.emod 146097).toNat
  let yoe := (doe - doe / 1460 + doe / 36524 - doe / 146096) / 365
  let y : Int := (yoe : Int) + era * 400
  let doy := doe - (365 * yoe + yoe / 4 - yoe / 100)
  let mp := (5 * doy + 2) / 153
  let d := doy - (153 * mp + 2) / 5 + 1
  let m := if mp < 10 then mp + 3 else mp - 9
  (if m ≤ 2 then y + 1 else y, m, d)

/-- Milliseconds per day. -/
def msPerDay : Int := 86400000

/-- Numeric value of an ASCII digit. -/
def digitVal (c : Char) : Option Nat :=
  if '0' ≤ c ∧ c ≤ '9' then some (c.toNat - '0'.toNat) else none

/-- Parse an ISO `YYYY-MM-DD` date-only string to its time value
(milliseconds of the UTC midnight of that day); `none` is an Invalid
Date.  Range checks (month 1–12, day fitting the month) follow the ISO
date-time parsing of `Date`. -/
def parseIsoDate : List Char → Option Int
  | [y1, y2, y3, y4, h1, m1, m2, h2, d1, d2] =>
    if h1 = '-' ∧ h2 = '-' then
      match digitVal y1, digitVal y2, digitVal y3, digitVal y4,
            digitVal m1, digitVal m2, digitVal d1, digitVal d2 with
      | some a, some b, some c, some d, some e, some f, some g, some h =>
          let y : Int := (((a * 10 + b) * 10 + c) * 10 + d : Nat)
          let mo := e * 10 + f
          let da := g * 10 + h
          if 1 ≤ mo ∧ mo ≤ 12 ∧ 1 ≤ da ∧ da ≤ daysInMonth y mo then
            some (daysFromCivil y mo da * msPerDay)
          else none
      | _, _, _, _, _, _, _, _ => none
    else none
  | _ => none

/-- `new Date(value).getTime()`, with `none` for `NaN` (an Invalid Date).
Numbers are timestamps, booleans coerce to 0/1, `null` to 0; strings are
parsed with `parseIsoDate`; `undefined`, `NaN` and plain objects give an
Invalid Date. -/
def jsDateParse : JSValue → Option Int
  | JSValue.num n => some n
  | JSValue.boolean b => some (if b then 1 else 0)
  | JSValue.null => some 0
  | JSValue.str s => parseIsoDate s.data
  | _ => none

/-- Left-pad the decimal form of `n` with zeros to `width` digits. -/
def padNat (width : Nat) (n : Nat) : String :=
  let s := toString n
  ⟨List.replicate (width - s.data.length) '0' ++ s.data⟩

/-- `date.toISOString().split('T')[0]`: the `YYYY-MM-DD` of the UTC day
containing the time value `ms` (for years 0–9999). -/
def isoDateString (ms : Int) : String :=
  let c := civilFromDays (ms.ediv msPerDay)
  padNat 4 c.1.toNat ++ "-" ++ padNat 2 c.2.1 ++ "-" ++ padNat 2 c.2.2

/-- `DueDateValidationStrategy.validate(dueDate)`.  `nowMs` is the
current time (`new Date()`), in milliseconds; `setHours(0,0,0,0)` floors
it to the start of the (UTC-modelled) day.  This validator calls no
string method on its input, so it never throws. -/
def DueDateValidationStrategy.validate (nowMs : Int) (dueDate : JSValue) :
    Option FieldResult :=
  if dueDate.falsy then
    some { isValid := true, errors := [], sanitizedValue := some JSValue.null }
  else
    match jsDateParse dueDate with
    | none => some { isValid := false, errors := ["Due date must be a valid date"] }
    | some dateMs =>
        let startOfToday := nowMs.ediv msPerDay * msPerDay
        let errors : List String :=
          if dateMs < startOfToday then ["Due date must be today or in the future"] else []
        some { isValid := errors.isEmpty, errors := errors,
               sanitizedValue := some (JSValue.str (isoDateString dateMs)) }

/-- The object handed to `validateTask`/`validateTaskUpdate`: each field
is `some v` when the object has that own property (with value `v`) and
`none` when it does not. -/
structure TaskData where
  title : Option JSValue := none
  description : Option JSValue := none
  priority : Option JSValue := none
  dueDate : Option JSValue := none
deriving DecidableEq, Repr

/-- Property access `obj.field`: an absent property reads as
`undefined`. -/
def propOr (v : Option JSValue) : JSValue :=
  v.getD JSValue.undefined

/-- The aggregate result object of the task validator:
`{ isValid, errors, fieldResults, sanitizedData }`, the two mappings as
association lists in key-insertion order. -/
structure AggregateResult where
  isValid : Bool
  errors : List String
  fieldResults : List (String × FieldResult)
  sanitizedData : List (String × JSValue)
deriving DecidableEq, Repr

/-- The first collection loop of `validateTask`: for each field whose
result is not valid, push every error prefixed with the field name. -/
def collectAllErrors (results : List (String × FieldResult)) : List String :=
  results.flatMap fun fr =>
    if fr.2.isValid then [] else fr.2.errors.map fun e => fr.1 ++ ": " ++ e

/-- The second collection loop of `validateTask`: for each field whose
result is valid, set `sanitizedData[field] = result.sanitizedValue`
(reading an absent `sanitizedValue` property as `undefined`). -/
def collectSanitizedData (results : List (String × FieldResult)) : List (String × JSValue) :=
  results.filterMap fun fr =>
    if fr.2.isValid then some (fr.1, fr.2.sanitizedValue.getD JSValue.undefined) else none

/-- The single combined collection loop of `validateTaskUpdate`: one pass
over `results` accumulating prefixed errors of invalid fields and
sanitized values of valid fields. -/
def collectErrorsAndSanitized :
    List (String × FieldResult) → List String × List (String × JSValue)
  | [] => ([], [])
  | fr :: rest =>
      let tail := collectErrorsAndSanitized rest
      if fr.2.isValid then
        (tail.1, (fr.1, fr.2.sanitizedValue.getD JSValue.undefined) :: tail.2)
      else
        ((fr.2.errors.map fun e => fr.1 ++ ": " ++ e) ++ tail.1, tail.2)

/-- `TaskValidator`, holding its four strategy instances (the due-date
strategy has no configuration and is addressed directly). -/
structure TaskValidator where
  titleValidator : TitleValidationStrategy := {}
  descriptionValidator : DescriptionValidationStrategy := {}
  priorityValidator : PriorityValidationStrategy := {}
deriving DecidableEq, Repr

/-- `TaskValidator.validateTask(taskData)`: run all four validators (a
missing field reads as `undefined`), in the literal key order title,
description, priority, dueDate; an exception from any validator
propagates (`none`). -/
def TaskValidator.validateTask (self : TaskValidator) (nowMs : Int) (taskData : TaskData) :
    Option AggregateResult :=
  (self.titleValidator.validate (propOr taskData.title)).bind fun titleResult =>
  (self.descriptionValidator.validate (propOr taskData.description)).bind fun descriptionResult =>
  (self.priorityValidator.validate (propOr taskData.priority)).bind fun priorityResult =>
  (DueDateValidationStrategy.validate nowMs (propOr taskData.dueDate)).map fun dueDateResult =>
    let results := [("title", titleResult), ("description", descriptionResult),
                    ("priority", priorityResult), ("dueDate", dueDateResult)]
    { isValid := (collectAllErrors results).isEmpty, errors := collectAllErrors results,
      fieldResults := results, sanitizedData := collectSanitizedData results }

/-- One `if (updates.hasOwnProperty(field))` block of
`validateTaskUpdate`: when the key is present, validate its value and
append the field's result; a thrown exception propagates. -/
def stepField (fieldName : String) (validateFn : JSValue → Option FieldResult)
    (v : Option JSValue) (acc : List (String × FieldResult)) :
    Option (List (String × FieldResult)) :=
  match v with
  | none => some acc
  | some value => (validateFn value).map fun r => acc ++ [(fieldName, r)]

/-- The four `hasOwnProperty` blocks of `validateTaskUpdate`, in source
order, building `results` in key-insertion order. -/
def validateUpdateResults (self : TaskValidator) (nowMs : Int) (updates : TaskData) :
    Option (List (String × FieldResult)) :=
  (stepField "title" self.titleValidator.validate updates.title []).bind fun r1 =>
  (stepField "description" self.descriptionValidator.validate updates.description r1).bind fun r2 =>
  (stepField "priority" self.priorityValidator.validate updates.priority r2).bind fun r3 =>
  stepField "dueDate" (DueDateValidationStrategy.validate nowMs) updates.dueDate r3

/-- `TaskValidator.validateTaskUpdate(updates)`: validate only the
present keys, then collect errors and sanitized data in a single pass. -/
def TaskValidator.validateTaskUpdate (self : TaskValidator) (nowMs : Int) (updates : TaskData) :
    Option AggregateResult :=
  (validateUpdateResults self nowMs updates).map fun results =>
    let pair := collectErrorsAndSanitized results
    { isValid := pair.1.isEmpty, errors := pair.1,
      fieldResults := results, sanitizedData := pair.2 }

/-- A `TaskValidator` as built by its constructor (all default
configurations). -/
def defaultTaskValidator : TaskValidator := {}

/-- A `TitleValidationStrategy` with the default configuration. -/
def defaultTitleStrategy : TitleValidationStrategy := {}

/-- A `DescriptionValidationStrategy` with the default configuration. -/
def defaultDescriptionStrategy : DescriptionValidationStrategy := {}

/-- A `PriorityValidationStrategy` with the default vocabulary. -/
def defaultPriorityStrategy : PriorityValidationStrategy := {}

/-- The keys of `updates` that `validateTaskUpdate` tests positively with
`hasOwnProperty`, in the source's fixed field order. -/
def presentKeys (u : TaskData) : List String :=
  (if u.title.isSome then ["title"] else []) ++
  (if u.description.isSome then ["description"] else []) ++
  (if u.priority.isSome then ["priority"] else []) ++
  (if u.dueDate.isSome then ["dueDate"] else [])

/-- One scheduled `RealTimeValidator.validateField(fieldName, value,
callback, delay)` call, at absolute time `time`. -/
structure FieldCall where
  fieldName : String
  value : JSValue
  time : Nat
  delay : Nat := 300
deriving DecidableEq, Repr

/-- `later` cancels the pending timer of `c` exactly when it is a call
for the same field arriving strictly before `c`'s timer fires
(`clearTimeout` in `validateField`). -/
def cancels (later c : FieldCall) : Bool :=
  later.fieldName == c.fieldName && later.time < c.time + c.delay

/-- Of a time-ordered trace of `validateField` calls, the calls whose
timers actually fire: those not cancelled by any later call. -/
def survivingCalls : List FieldCall → List FieldCall
  | [] => []
  | c :: rest =>
      (if rest.any (fun c2 => cancels c2 c) then [] else [c]) ++ survivingCalls rest

/-- The `switch (fieldName)` inside the timer callback of
`validateField`: dispatch to the matching strategy; an unknown field
yields `{ isValid: true, errors: [] }`. -/
def dispatchField (validator : TaskValidator) (nowMs : Int) (fieldName : String)
    (value : JSValue) : Option FieldResult :=
  if fieldName = "title" then validator.titleValidator.validate value
  else if fieldName = "description" then validator.descriptionValidator.validate value
  else if fieldName = "priority" then validator.priorityValidator.validate value
  else if fieldName = "dueDate" then DueDateValidationStrategy.validate nowMs value
  else some { isValid := true, errors := [] }

/-- The `callback(fieldName, result)` invocations produced by a trace of
`validateField` calls: one per surviving timer, with that call's field
name and the validation result of that call's (most recent) value. -/
def callbackInvocations (validator : TaskValidator) (nowMs : Int)
    (calls : List FieldCall) : List (String × Option FieldResult) :=
  (survivingCalls calls).map fun c =>
    (c.fieldName, dispatchField validator nowMs c.fieldName c.value)

/-- The values on which the string-consuming validators (title,
description, priority) return normally: falsy values take the default
branch, strings support `trim`/`toLowerCase`; anything else makes those
method calls throw. -/
def stringOrFalsy (v : JSValue) : Prop :=
  v.falsy = true ∨ ∃ s, v = JSValue.str s

/-- The aggregate result of `validateTask` on the empty object (all four
fields absent), at any current time: title missing, the three optional
fields defaulted. -/
def emptyTaskAggregate : AggregateResult :=
  { isValid := false,
    errors := ["title: Title is required"],
    fieldResults :=
      [("title", { isValid := false, errors := ["Title is required"], sanitizedValue := none }),
       ("description", { isValid := true, errors := [], sanitizedValue := some (JSValue.str "") }),
       ("priority", { isValid := true, errors := [], sanitizedValue := some (JSValue.str "medium") }),
       ("dueDate", { isValid := true, errors := [], sanitizedValue := some JSValue.null })],
    sanitizedData :=
      [("description", JSValue.str ""), ("priority", JSValue.str "medium"),
       ("dueDate", JSValue.null)] }

/-- The aggregate result of `validateTaskUpdate` on
`{ title: "New Title" }`. -/
def newTitleAggregate : AggregateResult :=
  { isValid := true,
    errors := [],
    fieldResults :=
      [("title", { isValid := true, errors := [],
                   sanitizedValue := some (JSValue.str "New Title") })],
    sanitizedData := [("title", JSValue.str "New Title")] }

/-! ## Helper lemmas -/

/-- Replacing a character that does not occur leaves the list unchanged. -/
theorem replaceAll_eq_self {c : Char} (r : List Char) {s : List Char} (h : c ∉ s) :
    replaceAll c r s = s := by
  induction s with
  | nil => rfl
  | cons a rest ih =>
      simp only [List.mem_cons, not_or] at h
      have hne : ¬ a = c := fun hac => h.1 hac.symm
      simp only [replaceAll, if_neg hne, ih h.2, List.singleton_append]

/-- On a string containing none of the five escaped characters,
`sanitize` is the identity. -/
theorem sanitizeList_eq_self {s : List Char}
    (h : ∀ c ∈ s, c ≠ '&' ∧ c ≠ '<' ∧ c ≠ '>' ∧ c ≠ quoteChar ∧ c ≠ apostropheChar) :
    sanitizeList s = s := by
  unfold sanitizeList
  rw [replaceAll_eq_self _ (fun hm => (h _ hm).1 rfl),
      replaceAll_eq_self _ (fun hm => (h _ hm).2.1 rfl),
      replaceAll_eq_self _ (fun hm => (h _ hm).2.2.1 rfl),
      replaceAll_eq_self _ (fun hm => (h _ hm).2.2.2.1 rfl),
      replaceAll_eq_self _ (fun hm => (h _ hm).2.2.2.2 rfl)]

/-- Trimming an all-whitespace list yields the empty list. -/
theorem jsTrimList_eq_nil {s : List Char} (h : ∀ c ∈ s, jsIsWhitespace c = true) :
    jsTrimList s = [] := by
  have h1 : s.dropWhile jsIsWhitespace = [] :=
    List.dropWhile_eq_nil_iff.mpr fun x hx => h x hx
  rw [jsTrimList, h1]
  rfl

/-- The single collection pass of `validateTaskUpdate` computes exactly
the two collection passes of `validateTask`. -/
theorem collectErrorsAndSanitized_eq (results : List (String × FieldResult)) :
    collectErrorsAndSanitized results =
      (collectAllErrors results, collectSanitizedData results) := by
  induction results with
  | nil => rfl
  | cons fr rest ih =>
      cases hv : fr.2.isValid <;>
        simp [collectErrorsAndSanitized, collectAllErrors, collectSanitizedData, ih, hv]

/-- The keys of collected sanitized data are exactly the keys of the
valid field results, in order. -/
theorem collectSanitizedData_keys (results : List (String × FieldResult)) :
    (collectSanitizedData results).map Prod.fst =
      (results.filter fun fr => fr.2.isValid).map Prod.fst := by
  induction results with
  | nil => rfl
  | cons fr rest ih =>
      simp only [collectSanitizedData] at ih ⊢
      cases hv : fr.2.isValid <;>
        simp [List.filterMap_cons, List.filter_cons, hv, ih]

/-- Inversion of a normal return of `validateTask`: the four field
results and the shape of the aggregate. -/
theorem validateTask_eq_some {self : TaskValidator} {nowMs : Int} {td : TaskData}
    {r : AggregateResult} (h : self.validateTask nowMs td = some r) :
    ∃ tr dr pr ddr,
      self.titleValidator.validate (propOr td.title) = some tr ∧
      self.descriptionValidator.validate (propOr td.description) = some dr ∧
      self.priorityValidator.validate (propOr td.priority) = some pr ∧
      DueDateValidationStrategy.validate nowMs (propOr td.dueDate) = some ddr ∧
      r = { isValid := (collectAllErrors [("title", tr), ("description", dr),
                         ("priority", pr), ("dueDate", ddr)]).isEmpty,
            errors := collectAllErrors [("title", tr), ("description", dr),
                        ("priority", pr), ("dueDate", ddr)],
            fieldResults := [("title", tr), ("description", dr),
                             ("priority", pr), ("dueDate", ddr)],
            sanitizedData := collectSanitizedData [("title", tr), ("description", dr),
                               ("priority", pr), ("dueDate", ddr)] } := by
  unfold TaskValidator.validateTask at h
  rw [Option.bind_eq_some] at h
  obtain ⟨tr, htr, h⟩ := h
  rw [Option.bind_eq_some] at h
  obtain ⟨dr, hdr, h⟩ := h
  rw [Option.bind_eq_some] at h
  obtain ⟨pr, hpr, h⟩ := h
  rw [Option.map_eq_some'] at h
  obtain ⟨ddr, hddr, h⟩ := h
  exact ⟨tr, dr, pr, ddr, htr, hdr, hpr, hddr, h.symm⟩

/-- Keys appended by one `hasOwnProperty` block. -/
theorem stepField_keys {fieldName : String} {validateFn : JSValue → Option FieldResult}
    {v : Option JSValue} {acc out : List (String × FieldResult)}
    (h : stepField fieldName validateFn v acc = some out) :
    out.map Prod.fst = acc.map Prod.fst ++ (if v.isSome then [fieldName] else []) := by
  cases v with
  | none =>
      simp only [stepField] at h
      injection h with h
      subst h
      simp
  | some value =>
      simp only [stepField] at h
      rw [Option.map_eq_some'] at h
      obtain ⟨fr, hfr, h⟩ := h
      subst h
      simp

/-- A `hasOwnProperty` block returns normally when the validator it may
run does. -/
theorem stepField_isSome (fieldName : String) (validateFn : JSValue → Option FieldResult)
    (v : Option JSValue) (acc : List (String × FieldResult))
    (h : ∀ x, v = some x → (validateFn x).isSome = true) :
    (stepField fieldName validateFn v acc).isSome = true := by
  cases v with
  | none => rfl
  | some value =>
      obtain ⟨fr, hfr⟩ := Option.isSome_iff_exists.mp (h value rfl)
      simp [stepField, hfr]

/-- The keys of the update results are exactly the present keys of the
update object, in the fixed field order. -/
theorem validateUpdateResults_keys {self : TaskValidator} {nowMs : Int} {u : TaskData}
    {results : List (String × FieldResult)}
    (h : validateUpdateResults self nowMs u = some results) :
    results.map Prod.fst = presentKeys u := by
  unfold validateUpdateResults at h
  rw [Option.bind_eq_some] at h
  obtain ⟨r1, h1, h⟩ := h
  rw [Option.bind_eq_some] at h
  obtain ⟨r2, h2, h⟩ := h
  rw [Option.bind_eq_some] at h
  obtain ⟨r3, h3, h⟩ := h
  rw [presentKeys, stepField_keys h, stepField_keys h3, stepField_keys h2,
    stepField_keys h1]
  simp [List.append_assoc]

/-- Inversion of a normal return of `validateTaskUpdate`. -/
theorem validateTaskUpdate_eq_some {self : TaskValidator} {nowMs : Int} {u : TaskData}
    {r : AggregateResult} (h : self.validateTaskUpdate nowMs u = some r) :
    ∃ results, validateUpdateResults self nowMs u = some results ∧
      r = { isValid := (collectAllErrors results).isEmpty,
            errors := collectAllErrors results,
            fieldResults := results,
            sanitizedData := collectSanitizedData results } := by
  unfold TaskValidator.validateTaskUpdate at h
  rw [Option.map_eq_some'] at h
  obtain ⟨results, hres, h⟩ := h
  refine ⟨results, hres, ?_⟩
  rw [← h]
  simp [collectErrorsAndSanitized_eq]

/-- The title validator returns normally on every falsy or string
input. -/
theorem title_validate_isSome (t : TitleValidationStrategy) (v : JSValue)
    (h : stringOrFalsy v) : (t.validate v).isSome = true := by
  rcases h with h | ⟨s, rfl⟩
  · simp [TitleValidationStrategy.validate, h]
  · cases hf : (JSValue.str s).falsy <;> simp [TitleValidationStrategy.validate, hf]

/-- The description validator returns normally on every falsy or string
input. -/
theorem description_validate_isSome (d : DescriptionValidationStrategy) (v : JSValue)
    (h : stringOrFalsy v) : (d.validate v).isSome = true := by
  rcases h with h | ⟨s, rfl⟩
  · simp [DescriptionValidationStrategy.validate, h]
  · cases hf : (JSValue.str s).falsy <;> simp [DescriptionValidationStrategy.validate, hf]

/-- The priority validator returns normally on every falsy or string
input. -/
theorem priority_validate_isSome (p : PriorityValidationStrategy) (v : JSValue)
    (h : stringOrFalsy v) : (p.validate v).isSome = true := by
  rcases h with h | ⟨s, rfl⟩
  · simp [PriorityValidationStrategy.validate, h]
  · cases hf : (JSValue.str s).falsy <;> simp [PriorityValidationStrategy.validate, hf]

/-- The due-date validator returns normally on every input: it calls no
method on the value, only `new Date(value)`. -/
theorem dueDate_validate_isSome (nowMs : Int) (v : JSValue) :
    (DueDateValidationStrategy.validate nowMs v).isSome = true := by
  unfold DueDateValidationStrategy.validate
  split
  · rfl
  · cases jsDateParse v <;> simp

/-- A timer followed only by same-field calls inside its window never
fires; the last call of such a burst is the only survivor. -/
theorem survivingCalls_append_last (pre : List FieldCall) (c : FieldCall)
    (h : ∀ x ∈ pre, x.fieldName = c.fieldName ∧ c.time < x.time + x.delay) :
    survivingCalls (pre ++ [c]) = [c] := by
  induction pre with
  | nil => simp [survivingCalls]
  | cons a pre ih =>
      have ha := h a (List.mem_cons_self a pre)
      have hc : cancels c a = true := by
        simp [cancels, ha.1, ha.2]
      have hany : ((pre ++ [c]).any fun c2 => cancels c2 a) = true :=
        List.any_eq_true.mpr ⟨c, by simp, hc⟩
      have hrest := ih fun x hx => h x (List.mem_cons_of_mem a hx)
      simp [survivingCalls, hany, hrest]

/-- Whether some member of a trace cancels a call of field `f` is
unchanged by restricting the trace to field `f`: only same-field calls
can cancel. -/
theorem any_cancels_filter (rest : List FieldCall) (a : FieldCall) (f : String)
    (hf : a.fieldName = f) :
    ((rest.filter fun x => x.fieldName == f).any fun x => cancels x a) =
      rest.any fun x => cancels x a := by
  induction rest with
  | nil => rfl
  | cons x rest ih =>
      by_cases hx : x.fieldName = f
      · simp [List.filter_cons, hx, ih]
      · have hxf : (x.fieldName == f) = false := beq_eq_false_iff_ne.mpr hx
        have hcx : cancels x a = false := by
          have hxa : (x.fieldName == a.fieldName) = false := by
            rw [hf]
            exact hxf
          simp [cancels, hxa]
        simp [List.filter_cons, hxf, hcx, ih]

/-- Debounce independence across fields: restricting a trace to one
field name commutes with computing the surviving timers.  Calls for
other fields neither cancel nor are cancelled by this field's calls. -/
theorem survivingCalls_filter (calls : List FieldCall) (f : String) :
    survivingCalls (calls.filter fun x => x.fieldName == f) =
      (survivingCalls calls).filter fun x => x.fieldName == f := by
  induction calls with
  | nil => rfl
  | cons a rest ih =>
      by_cases haf : a.fieldName = f
      · cases hany : rest.any fun x => cancels x a <;>
          simp [List.filter_cons, List.filter_append, haf, survivingCalls,
            any_cancels_filter rest a f haf, hany, ih]
      · have hskip : (a.fieldName == f) = false := beq_eq_false_iff_ne.mpr haf
        cases hany : rest.any fun x => cancels x a <;>
          simp [List.filter_cons, List.filter_append, hskip, survivingCalls, hany, ih]

/-! ## Claims -/

/-- C10: every field validator tests for an absent value by JS
falsiness, so every falsy input (null, undefined, the empty string, 0,
false, NaN) takes the absent branch: the title validator returns
`isValid: false` with the single error "Title is required" and no
`sanitizedValue`; the description validator returns `isValid: true` with
`sanitizedValue` ""; the priority validator returns `isValid: true` with
`sanitizedValue` "medium"; the due-date validator returns
`isValid: true` with `sanitizedValue` null. -/
theorem claim_C10 (t : TitleValidationStrategy) (d : DescriptionValidationStrategy)
    (p : PriorityValidationStrategy) (v : JSValue) (h : v.falsy = true) :
    t.validate v =
      some { isValid := false, errors := ["Title is required"], sanitizedValue := none } ∧
    d.validate v =
      some { isValid := true, errors := [], sanitizedValue := some (JSValue.str "") } ∧
    p.validate v =
      some { isValid := true, errors := [], sanitizedValue := some (JSValue.str "medium") } ∧
    ∀ nowMs : Int, DueDateValidationStrategy.validate nowMs v =
      some { isValid := true, errors := [], sanitizedValue := some JSValue.null } := by
  refine ⟨?_, ?_, ?_, fun nowMs => ?_⟩ <;>
    simp [TitleValidationStrategy.validate, DescriptionValidationStrategy.validate,
      PriorityValidationStrategy.validate, DueDateValidationStrategy.validate, h]

/-- Witness for C10 at the concrete falsy input 0. -/
theorem claim_C10_witness :
    defaultTitleStrategy.validate (JSValue.num 0) =
      some { isValid := false, errors := ["Title is required"], sanitizedValue := none } ∧
    defaultDescriptionStrategy.validate (JSValue.num 0) =
      some { isValid := true, errors := [], sanitizedValue := some (JSValue.str "") } ∧
    defaultPriorityStrategy.validate (JSValue.num 0) =
      some { isValid := true, errors := [], sanitizedValue := some (JSValue.str "medium") } ∧
    DueDateValidationStrategy.validate 0 (JSValue.num 0) =
      some { isValid := true, errors := [], sanitizedValue := some JSValue.null } := by
  obtain ⟨h1, h2, h3, h4⟩ := claim_C10 defaultTitleStrategy defaultDescriptionStrategy
    defaultPriorityStrategy (JSValue.num 0) (by decide)
  exact ⟨h1, h2, h3, h4 0⟩

/-- C1 counterexample: the claim says every validator and both aggregate
methods return a result normally for input of any type, including
numbers; but the truthy number 1 makes `title.trim()` (and the other
string methods) throw a `TypeError` (modelled by `none`), which
propagates out of `validateTask` and `validateTaskUpdate`. -/
theorem claim_C1_counterexample :
    defaultTitleStrategy.validate (JSValue.num 1) = none ∧
    defaultDescriptionStrategy.validate (JSValue.num 1) = none ∧
    defaultPriorityStrategy.validate (JSValue.num 1) = none ∧
    defaultTaskValidator.validateTask 0 { title := some (JSValue.num 1) } = none ∧
    defaultTaskValidator.validateTaskUpdate 0 { title := some (JSValue.num 1) } = none := by
  decide

/-- C1 amended: the validators return a result normally (converting
malformed input into `errors` entries) for every falsy input and every
string input; the due-date validator returns normally for every input;
and `validateTask`/`validateTaskUpdate` return normally whenever the
title, description and priority values they validate are falsy or
strings.  Truthy non-string inputs to the three string-consuming
validators raise a `TypeError` instead. -/
theorem claim_C1_amended :
    (∀ (t : TitleValidationStrategy) (d : DescriptionValidationStrategy)
        (p : PriorityValidationStrategy) (v : JSValue), stringOrFalsy v →
        (t.validate v).isSome = true ∧ (d.validate v).isSome = true ∧
        (p.validate v).isSome = true) ∧
    (∀ (nowMs : Int) (v : JSValue),
        (DueDateValidationStrategy.validate nowMs v).isSome = true) ∧
    (∀ (self : TaskValidator) (nowMs : Int) (td : TaskData),
        stringOrFalsy (propOr td.title) → stringOrFalsy (propOr td.description) →
        stringOrFalsy (propOr td.priority) →
        (self.validateTask nowMs td).isSome = true) ∧
    (∀ (self : TaskValidator) (nowMs : Int) (u : TaskData),
        (∀ x, u.title = some x → stringOrFalsy x) →
        (∀ x, u.description = some x → stringOrFalsy x) →
        (∀ x, u.priority = some x → stringOrFalsy x) →
        (self.validateTaskUpdate nowMs u).isSome = true) := by
  refine ⟨fun t d p v h => ⟨title_validate_isSome t v h,
    description_validate_isSome d v h, priority_validate_isSome p v h⟩,
    dueDate_validate_isSome, ?_, ?_⟩
  · intro self nowMs td h1 h2 h3
    obtain ⟨tr, htr⟩ := Option.isSome_iff_exists.mp
      (title_validate_isSome self.titleValidator _ h1)
    obtain ⟨dr, hdr⟩ := Option.isSome_iff_exists.mp
      (description_validate_isSome self.descriptionValidator _ h2)
    obtain ⟨pr, hpr⟩ := Option.isSome_iff_exists.mp
      (priority_validate_isSome self.priorityValidator _ h3)
    obtain ⟨ddr, hddr⟩ := Option.isSome_iff_exists.mp
      (dueDate_validate_isSome nowMs (propOr td.dueDate))
    simp [TaskValidator.validateTask, htr, hdr, hpr, hddr]
  · intro self nowMs u h1 h2 h3
    obtain ⟨r1, hr1⟩ := Option.isSome_iff_exists.mp
      (stepField_isSome "title" self.titleValidator.validate u.title []
        fun x hx => title_validate_isSome self.titleValidator x (h1 x hx))
    obtain ⟨r2, hr2⟩ := Option.isSome_iff_exists.mp
      (stepField_isSome "description" self.descriptionValidator.validate u.description r1
        fun x hx => description_validate_isSome self.descriptionValidator x (h2 x hx))
    obtain ⟨r3, hr3⟩ := Option.isSome_iff_exists.mp
      (stepField_isSome "priority" self.priorityValidator.validate u.priority r2
        fun x hx => priority_validate_isSome self.priorityValidator x (h3 x hx))
    obtain ⟨r4, hr4⟩ := Option.isSome_iff_exists.mp
      (stepField_isSome "dueDate" (DueDateValidationStrategy.validate nowMs) u.dueDate r3
        fun x _ => dueDate_validate_isSome nowMs x)
    simp [TaskValidator.validateTaskUpdate, validateUpdateResults, hr1, hr2, hr3, hr4]

/-- Witness for C1 (amended) at concrete inputs: a string title, a plain
object as due date, the empty task object, and an update with a falsy
present title. -/
theorem claim_C1_witness :
    (defaultTitleStrategy.validate (JSValue.str "ok")).isSome = true ∧
    (DueDateValidationStrategy.validate 0 JSValue.object).isSome = true ∧
    (defaultTaskValidator.validateTask 0 {}).isSome = true ∧
    (defaultTaskValidator.validateTaskUpdate 0 { title := some JSValue.null }).isSome = true := by
  refine ⟨(claim_C1_amended.1 defaultTitleStrategy defaultDescriptionStrategy
      defaultPriorityStrategy (JSValue.str "ok") (Or.inr ⟨"ok", rfl⟩)).1,
    claim_C1_amended.2.1 0 JSValue.object,
    claim_C1_amended.2.2.1 defaultTaskValidator 0 {} (Or.inl rfl) (Or.inl rfl) (Or.inl rfl),
    claim_C1_amended.2.2.2 defaultTaskValidator 0 { title := some JSValue.null }
      ?_ ?_ ?_⟩
  · intro x hx
    injection hx with hx
    subst hx
    exact Or.inl rfl
  · intro x hx
    simp at hx
  · intro x hx
    simp at hx

/-- C2 counterexample: on the whitespace-only title "   " the validator
returns two errors, not exactly one — the min-length check (trimmed
length 0 below the default minLength 1) also fires. -/
theorem claim_C2_counterexample :
    defaultTitleStrategy.validate (JSValue.str "   ") =
      some { isValid := false,
             errors := ["Title cannot be empty or only whitespace",
                        "Title must be at least 1 character(s)"],
             sanitizedValue := some (JSValue.str "") } ∧
    ["Title cannot be empty or only whitespace",
     "Title must be at least 1 character(s)"] ≠
      ["Title cannot be empty or only whitespace"] := by
  decide

/-- C2 amended: for every non-empty all-whitespace title string the
default title validator returns exactly two errors — the
whitespace-only error followed by the min-length error (trimmed length 0
is below the default minLength 1); the max-length and HTML checks do not
additionally fire. -/
theorem claim_C2 (s : String) (hne : s.data ≠ [])
    (hws : ∀ c ∈ s.data, jsIsWhitespace c = true) :
    defaultTitleStrategy.validate (JSValue.str s) =
      some { isValid := false,
             errors := ["Title cannot be empty or only whitespace",
                        "Title must be at least 1 character(s)"],
             sanitizedValue := some (JSValue.str "") } := by
  have hfalsy : (JSValue.str s).falsy = false := by
    simp [JSValue.falsy, hne]
  have htrim : jsTrim s = "" := by
    have h0 : jsTrimList s.data = [] := jsTrimList_eq_nil hws
    simp [jsTrim, h0]
  simp only [TitleValidationStrategy.validate, hfalsy, Bool.false_eq_true, if_false, htrim]
  decide

/-- Witness for C2 (amended) at the spec's example "   " (three
spaces). -/
theorem claim_C2_witness :
    defaultTitleStrategy.validate (JSValue.str "   ") =
      some { isValid := false,
             errors := ["Title cannot be empty or only whitespace",
                        "Title must be at least 1 character(s)"],
             sanitizedValue := some (JSValue.str "") } :=
  claim_C2 "   " (by decide) (by decide)

/-- C3 counterexample: "&" is accepted as a valid title and contains no
HTML tag, yet sanitizing it twice re-escapes the ampersand of "&amp;",
so escaping is not stable on it. -/
theorem claim_C3_counterexample :
    defaultTitleStrategy.validate (JSValue.str "&") =
      some { isValid := true, errors := [],
             sanitizedValue := some (JSValue.str "&amp;") } ∧
    containsHtml "&" = false ∧
    sanitize (sanitize "&") ≠ sanitize "&" := by
  decide

/-- C3 amended: sanitization is idempotent exactly on strings that
contain none of the five escaped characters (ampersand, the two angle
brackets, double quote, single quote) — on those `sanitize` is the
identity, so sanitizing twice equals sanitizing once.  (Such strings are
in particular free of HTML tags; on any string containing an escaped
character, the ampersands introduced by escaping are re-escaped by a
second pass.) -/
theorem claim_C3 (s : String)
    (h : ∀ c ∈ s.data, c ≠ '&' ∧ c ≠ '<' ∧ c ≠ '>' ∧ c ≠ quoteChar ∧ c ≠ apostropheChar) :
    sanitize (sanitize s) = sanitize s := by
  have hs : sanitize s = s := by
    show (⟨sanitizeList s.data⟩ : String) = s
    rw [sanitizeList_eq_self h]
  rw [hs]
  exact hs

/-- Witness for C3 (amended) at the concrete escape-free string
"hello". -/
theorem claim_C3_witness : sanitize (sanitize "hello") = sanitize "hello" :=
  claim_C3 "hello" (by decide)

/-- C4: the due-date validator decides validity at day granularity.  For
any date string parsing to the midnight of day number `d` and any
current time `nowMs`, the result is valid exactly when `d` is not before
the current calendar day (so any time within the same day is never
"past"), and an earlier day yields the single error "Due date must be
today or in the future". -/
theorem claim_C4 (s : String) (d nowMs : Int)
    (hparse : parseIsoDate s.data = some (d * msPerDay)) :
    (nowMs.ediv msPerDay ≤ d →
      DueDateValidationStrategy.validate nowMs (JSValue.str s) =
        some { isValid := true, errors := [],
               sanitizedValue := some (JSValue.str (isoDateString (d * msPerDay))) }) ∧
    (d < nowMs.ediv msPerDay →
      DueDateValidationStrategy.validate nowMs (JSValue.str s) =
        some { isValid := false, errors := ["Due date must be today or in the future"],
               sanitizedValue := some (JSValue.str (isoDateString (d * msPerDay))) }) := by
  have hne : s.data ≠ [] := by
    intro he
    rw [he] at hparse
    simp [parseIsoDate] at hparse
  have hfalsy : (JSValue.str s).falsy = false := by
    simp [JSValue.falsy, hne]
  have hcmp : (d * msPerDay < nowMs.ediv msPerDay * msPerDay) ↔ d < nowMs.ediv msPerDay :=
    mul_lt_mul_right (by decide : (0 : Int) < msPerDay)
  constructor
  · intro hle
    have hnotlt : ¬ (d * msPerDay < nowMs.ediv msPerDay * msPerDay) := by
      rw [hcmp]
      exact not_lt.mpr hle
    simp [DueDateValidationStrategy.validate, hfalsy, jsDateParse, hparse, hnotlt]
  · intro hlt
    have hlt2 : d * msPerDay < nowMs.ediv msPerDay * msPerDay := hcmp.mpr hlt
    simp [DueDateValidationStrategy.validate, hfalsy, jsDateParse, hparse, hlt2]

/-- Witness for C4 at the spec's example: with the current time at noon
of 2024-01-01, the same-day string "2024-01-01" is valid and the
earlier-day string "2023-12-31" is invalid with the single past-date
error. -/
theorem claim_C4_witness :
    DueDateValidationStrategy.validate (daysFromCivil 2024 1 1 * msPerDay + 43200000)
        (JSValue.str "2024-01-01") =
      some { isValid := true, errors := [],
             sanitizedValue := some (JSValue.str "2024-01-01") } ∧
    DueDateValidationStrategy.validate (daysFromCivil 2024 1 1 * msPerDay + 43200000)
        (JSValue.str "2023-12-31") =
      some { isValid := false, errors := ["Due date must be today or in the future"],
             sanitizedValue := some (JSValue.str "2023-12-31") } := by
  constructor
  · exact ((claim_C4 "2024-01-01" (daysFromCivil 2024 1 1)
      (daysFromCivil 2024 1 1 * msPerDay + 43200000) (by decide)).1 (by decide)).trans
      (by decide)
  · exact ((claim_C4 "2023-12-31" (daysFromCivil 2023 12 31)
      (daysFromCivil 2024 1 1 * msPerDay + 43200000) (by decide)).2 (by decide)).trans
      (by decide)

/-- C5: in every aggregate result of `validateTask` and of
`validateTaskUpdate`, the key sequence of `sanitizedData` is exactly the
key sequence of the fields whose `fieldResults` entry is valid; in
particular no key of a failed field ever appears in `sanitizedData`. -/
theorem claim_C5 :
    (∀ (self : TaskValidator) (nowMs : Int) (td : TaskData) (r : AggregateResult),
        self.validateTask nowMs td = some r →
        r.sanitizedData.map Prod.fst =
          (r.fieldResults.filter fun fr => fr.2.isValid).map Prod.fst) ∧
    (∀ (self : TaskValidator) (nowMs : Int) (u : TaskData) (r : AggregateResult),
        self.validateTaskUpdate nowMs u = some r →
        r.sanitizedData.map Prod.fst =
          (r.fieldResults.filter fun fr => fr.2.isValid).map Prod.fst) := by
  constructor
  · intro self nowMs td r h
    obtain ⟨tr, dr, pr, ddr, _, _, _, _, hr⟩ := validateTask_eq_some h
    subst hr
    exact collectSanitizedData_keys _
  · intro self nowMs u r h
    obtain ⟨results, _, hr⟩ := validateTaskUpdate_eq_some h
    subst hr
    exact collectSanitizedData_keys _

/-- Witness for C5 at the empty task object: validation of `{}` yields
`emptyTaskAggregate`, whose sanitized keys are exactly its valid field
keys. -/
theorem claim_C5_witness :
    emptyTaskAggregate.sanitizedData.map Prod.fst =
      (emptyTaskAggregate.fieldResults.filter fun fr => fr.2.isValid).map Prod.fst :=
  claim_C5.1 defaultTaskValidator 0 {} emptyTaskAggregate (by decide)

/-- C6: `validateTaskUpdate` runs a field validator exactly for the keys
present in the update object (presence, not truthiness): the result's
`fieldResults` keys are exactly the present keys in the fixed field
order; `{title: ""}` (falsy but present) still triggers title
validation; `{}` yields a valid result with empty errors and empty
`fieldResults`; `{title: "New Title"}` yields exactly the one key
`title`. -/
theorem claim_C6 :
    (∀ (self : TaskValidator) (nowMs : Int) (u : TaskData) (r : AggregateResult),
        self.validateTaskUpdate nowMs u = some r →
        r.fieldResults.map Prod.fst = presentKeys u) ∧
    (defaultTaskValidator.validateTaskUpdate 0 { title := some (JSValue.str "") } =
      some { isValid := false, errors := ["title: Title is required"],
             fieldResults := [("title", ⟨false, ["Title is required"], none⟩)],
             sanitizedData := [] }) ∧
    (defaultTaskValidator.validateTaskUpdate 0 {} =
      some { isValid := true, errors := [], fieldResults := [], sanitizedData := [] }) ∧
    (Option.map (fun r => r.fieldResults.map Prod.fst)
        (defaultTaskValidator.validateTaskUpdate 0
          { title := some (JSValue.str "New Title") }) = some ["title"]) := by
  refine ⟨?_, by decide, by decide, by decide⟩
  intro self nowMs u r h
  obtain ⟨results, hres, hr⟩ := validateTaskUpdate_eq_some h
  subst hr
  exact validateUpdateResults_keys hres

/-- Witness for C6 at the update `{title: "New Title"}`: its
`fieldResults` keys are the present keys of the update object. -/
theorem claim_C6_witness :
    newTitleAggregate.fieldResults.map Prod.fst =
      presentKeys { title := some (JSValue.str "New Title") } :=
  claim_C6.1 defaultTaskValidator 0 { title := some (JSValue.str "New Title") }
    newTitleAggregate (by decide)

/-- C7: in both aggregate results the `errors` sequence is exactly the
concatenation, over the field results in the fixed order title,
description, priority, dueDate (restricted to present keys for updates),
of each failing field's errors prefixed with "field: ", preserving each
field's internal error order.  (The input object's own key order cannot
influence this: both methods access the fields by name.) -/
theorem claim_C7 :
    (∀ (self : TaskValidator) (nowMs : Int) (td : TaskData) (r : AggregateResult),
        self.validateTask nowMs td = some r →
        r.fieldResults.map Prod.fst = ["title", "description", "priority", "dueDate"] ∧
        r.errors = r.fieldResults.flatMap fun fr =>
          if fr.2.isValid then [] else fr.2.errors.map fun e => fr.1 ++ ": " ++ e) ∧
    (∀ (self : TaskValidator) (nowMs : Int) (u : TaskData) (r : AggregateResult),
        self.validateTaskUpdate nowMs u = some r →
        r.fieldResults.map Prod.fst = presentKeys u ∧
        r.errors = r.fieldResults.flatMap fun fr =>
          if fr.2.isValid then [] else fr.2.errors.map fun e => fr.1 ++ ": " ++ e) := by
  constructor
  · intro self nowMs td r h
    obtain ⟨tr, dr, pr, ddr, _, _, _, _, hr⟩ := validateTask_eq_some h
    subst hr
    exact ⟨by simp, rfl⟩
  · intro self nowMs u r h
    obtain ⟨results, hres, hr⟩ := validateTaskUpdate_eq_some h
    subst hr
    exact ⟨validateUpdateResults_keys hres, rfl⟩

/-- Witness for C7 at the empty task object: the aggregate
`emptyTaskAggregate` lists all four fields in order and its errors are
the prefixed errors of its failing fields. -/
theorem claim_C7_witness :
    emptyTaskAggregate.fieldResults.map Prod.fst =
      ["title", "description", "priority", "dueDate"] ∧
    emptyTaskAggregate.errors = emptyTaskAggregate.fieldResults.flatMap fun fr =>
      if fr.2.isValid then [] else fr.2.errors.map fun e => fr.1 ++ ": " ++ e :=
  claim_C7.1 defaultTaskValidator 0 {} emptyTaskAggregate (by decide)

/-- C9: on an object that has all four own keys, `validateTaskUpdate`
validates the same fields in the same order and aggregates them to
exactly the same result (same `isValid`, `errors`, `fieldResults`,
`sanitizedData`) as `validateTask` — including the propagation of a
thrown validator exception. -/
theorem claim_C9 (self : TaskValidator) (nowMs : Int) (td : TaskData)
    (h1 : td.title.isSome = true) (h2 : td.description.isSome = true)
    (h3 : td.priority.isSome = true) (h4 : td.dueDate.isSome = true) :
    self.validateTaskUpdate nowMs td = self.validateTask nowMs td := by
  obtain ⟨v1, hv1⟩ := Option.isSome_iff_exists.mp h1
  obtain ⟨v2, hv2⟩ := Option.isSome_iff_exists.mp h2
  obtain ⟨v3, hv3⟩ := Option.isSome_iff_exists.mp h3
  obtain ⟨v4, hv4⟩ := Option.isSome_iff_exists.mp h4
  unfold TaskValidator.validateTaskUpdate TaskValidator.validateTask
    validateUpdateResults stepField
  rw [hv1, hv2, hv3, hv4]
  simp only [propOr, Option.getD_some]
  cases self.titleValidator.validate v1 <;>
    cases self.descriptionValidator.validate v2 <;>
      cases self.priorityValidator.validate v3 <;>
        cases DueDateValidationStrategy.validate nowMs v4 <;>
          simp [collectErrorsAndSanitized_eq]

/-- Witness for C9 at a concrete full update object (including a falsy
but present due date). -/
theorem claim_C9_witness :
    defaultTaskValidator.validateTaskUpdate 0
        { title := some (JSValue.str "Task"), description := some (JSValue.str "ok"),
          priority := some (JSValue.str "HIGH"), dueDate := some JSValue.null } =
      defaultTaskValidator.validateTask 0
        { title := some (JSValue.str "Task"), description := some (JSValue.str "ok"),
          priority := some (JSValue.str "HIGH"), dueDate := some JSValue.null } :=
  claim_C9 defaultTaskValidator 0
    { title := some (JSValue.str "Task"), description := some (JSValue.str "ok"),
      priority := some (JSValue.str "HIGH"), dueDate := some JSValue.null }
    rfl rfl rfl rfl

/-- C8: per-field debouncing.  First part: a burst of calls for one
field, each arriving within the pending timer's window, fires the
callback exactly once, with the validation result of the most recently
supplied value.  Second part: calls for different field names are
independent — restricting the trace to one field name commutes with
computing which timers fire, so other fields' calls neither cancel nor
are cancelled by this field's. -/
theorem claim_C8 :
    (∀ (validator : TaskValidator) (nowMs : Int) (pre : List FieldCall) (c : FieldCall),
        (∀ x ∈ pre, x.fieldName = c.fieldName ∧ c.time < x.time + x.delay) →
        callbackInvocations validator nowMs (pre ++ [c]) =
          [(c.fieldName, dispatchField validator nowMs c.fieldName c.value)]) ∧
    (∀ (calls : List FieldCall) (f : String),
        survivingCalls (calls.filter fun x => x.fieldName == f) =
          (survivingCalls calls).filter fun x => x.fieldName == f) := by
  constructor
  · intro validator nowMs pre c h
    rw [callbackInvocations, survivingCalls_append_last pre c h]
    rfl
  · exact survivingCalls_filter

/-- Witness for C8 at the spec's example: `validateField("title", "a")`
then `validateField("title", "ab")` 100 ms later (within the 300 ms
window) invokes the callback once, with the result for "ab". -/
theorem claim_C8_witness :
    callbackInvocations defaultTaskValidator 0
        ([⟨"title", JSValue.str "a", 0, 300⟩] ++ [⟨"title", JSValue.str "ab", 100, 300⟩]) =
      [("title", some ⟨true, [], some (JSValue.str "ab")⟩)] := by
  refine (claim_C8.1 defaultTaskValidator 0 [⟨"title", JSValue.str "a", 0, 300⟩]
    ⟨"title", JSValue.str "ab", 100, 300⟩ ?_).trans (by decide)
  intro x hx
  simp at hx
  subst hx
  exact ⟨rfl, by decide⟩
